import Mathlib

/-!
Verification of the nginx access-log exporter (src/main.go).

The pipeline compiles an nginx log-format template into a token plan,
matches each raw line against it, derives a (status, method) label tuple,
and updates Prometheus-style metric families.  The format compiler, line
matcher and numeric field accessors live in the gonx dependency, which is
not part of this repository's sources; those pieces are modelled from the
specification (sections 4.1, 4.2).  The aggregation loop `processLogFile`
is translated from src/main.go lines 149-187, including its fatal-log and
slice-indexing behaviour.

Strings are modelled as `List Char`; numeric field values are modelled as
exact rationals.
-/

abbrev Chars := List Char

/-- Modelled from the spec (§3, §4.1); the gonx format compiler is not under
src/.  A format token is either literal text or a named placeholder. -/
inductive FormatToken where
  | literal (text : Chars)
  | field (name : Chars)
  deriving DecidableEq

/-- Modelled from the spec (§4.1): placeholder identifiers are letters,
digits and underscore. -/
def isIdentChar (c : Char) : Bool := c.isAlpha || c.isDigit || c = '_'

/-- Scanner state: accumulating a literal run, or a placeholder name
(accumulators are kept reversed). -/
inductive ScanState where
  | lit (acc : Chars)
  | fld (acc : Chars)

/-- Emit the accumulated literal run, if nonempty (tokens are emitted
eagerly on sigil boundaries, spec §4.1). -/
def flushLit (acc : Chars) : List FormatToken :=
  if acc = [] then [] else [FormatToken.literal acc.reverse]

/-- Modelled from the spec (§4.1); the gonx format scanner is not under
src/.  Scan left to right; on the `$` sigil accumulate an identifier as a
Field token; all other runs of characters accumulate into Literal tokens. -/
def scanAux : Chars → ScanState → List FormatToken
  | [], ScanState.lit acc => flushLit acc
  | [], ScanState.fld acc => [FormatToken.field acc.reverse]
  | c :: rest, ScanState.lit acc =>
      if c = '$' then flushLit acc ++ scanAux rest (ScanState.fld [])
      else scanAux rest (ScanState.lit (c :: acc))
  | c :: rest, ScanState.fld acc =>
      if c = '$' then FormatToken.field acc.reverse :: scanAux rest (ScanState.fld [])
      else if isIdentChar c then scanAux rest (ScanState.fld (c :: acc))
      else FormatToken.field acc.reverse :: scanAux rest (ScanState.lit [c])

/-- Modelled from the spec (§4.1): turn a template string into an ordered
token plan. -/
def scanFormat (fmt : Chars) : List FormatToken := scanAux fmt (ScanState.lit [])

/-- Two consecutive Field tokens with no intervening Literal. -/
def hasAdjacentFields : List FormatToken → Bool
  | [] => false
  | [_] => false
  | FormatToken.field _ :: FormatToken.field _ :: _ => true
  | FormatToken.field _ :: FormatToken.literal l :: rest =>
      hasAdjacentFields (FormatToken.literal l :: rest)
  | FormatToken.literal _ :: t :: rest => hasAdjacentFields (t :: rest)

/-- Modelled from the spec (§4.1, §7): compilation errors are configuration
errors, fatal at startup. -/
inductive ConfigError where
  | adjacentFields
  deriving DecidableEq

/-- Modelled from the spec (§4.1); the gonx compiler is not under src/.
Compilation (performed once at process startup, src/main.go:139) rejects
plans with consecutive Field tokens. -/
def compileFormat (fmt : Chars) : Except ConfigError (List FormatToken) :=
  if hasAdjacentFields (scanFormat fmt) = true then Except.error ConfigError.adjacentFields
  else Except.ok (scanFormat fmt)

/-- A parsed entry maps field names to raw string values (spec §3). -/
abbrev Entry := List (Chars × Chars)

/-- Consume the literal `lit` from the front of `rest`; `some` of the
remainder exactly when `rest` starts with `lit`. -/
def consumeLit : Chars → Chars → Option Chars
  | [], rest => some rest
  | _ :: _, [] => none
  | c :: cs, d :: ds => if c = d then consumeLit cs ds else none

/-- Modelled from the spec (§4.2): a field is matched greedily up to the
first occurrence of the next boundary.  `splitOnLit lit s` splits `s` at
the first occurrence of `lit`, returning the part before it and the part
after it. -/
def splitOnLit (lit : Chars) : Chars → Option (Chars × Chars)
  | [] =>
      match consumeLit lit [] with
      | some rest => some ([], rest)
      | none => none
  | c :: rest =>
      match consumeLit lit (c :: rest) with
      | some after => some ([], after)
      | none =>
          match splitOnLit lit rest with
          | some (pre, post) => some (c :: pre, post)
          | none => none

/-- Modelled from the spec (§4.2); the gonx line matcher is not under src/.
Walk the plan: a Literal must occur at the cursor; a Field consumes up to
the boundary implied by the next Literal (first occurrence), or to end of
line when last.  Any mismatch or premature end of line is a parse failure
(`none`).  Consecutive Field tokens never reach the matcher (compilation
rejects them); that case is mapped to failure. -/
def matchPlan : List FormatToken → Chars → Option Entry
  | [], rest => if rest = [] then some [] else none
  | FormatToken.literal l :: plan, rest =>
      match consumeLit l rest with
      | some rest' => matchPlan plan rest'
      | none => none
  | [FormatToken.field n], rest => some [(n, rest)]
  | FormatToken.field n :: FormatToken.literal l :: plan, rest =>
      match splitOnLit l rest with
      | some (v, post) =>
          match matchPlan plan post with
          | some entry => some ((n, v) :: entry)
          | none => none
      | none => none
  | FormatToken.field _ :: FormatToken.field _ :: _, _ => none

/-- Modelled from the spec (§4.2); gonx `Entry.Field` is not under src/.
Look a raw field value up by name; `none` models the absent-field error. -/
def entryField (e : Entry) (n : Chars) : Option Chars :=
  match e.find? (fun p => p.1 == n) with
  | some p => some p.2
  | none => none

/-- Digits to a natural number, most significant first. -/
def digitsToNat (ds : Chars) : Nat :=
  ds.foldl (fun n c => 10 * n + (c.toNat - '0'.toNat)) 0

/-- Modelled from the spec (§4.2): a raw value either is numeric (an
optional fraction after a decimal point) or fails the numeric accessor.
Values are exact rationals; the spec only distinguishes numeric from
non-numeric text. -/
def parseUnsigned (s : Chars) : Option ℚ :=
  let intPart := s.takeWhile Char.isDigit
  let rest := s.dropWhile Char.isDigit
  if intPart = [] then none
  else
    match rest with
    | [] => some (mkRat (digitsToNat intPart) 1)
    | c :: frac =>
        if c = '.' then
          if frac = [] then none
          else if frac.all Char.isDigit then
            some (mkRat (digitsToNat intPart * 10 ^ frac.length + digitsToNat frac)
              (10 ^ frac.length))
          else none
        else none

/-- Modelled from the spec (§4.2): numeric text with an optional sign. -/
def parseDecimal (s : Chars) : Option ℚ :=
  match s with
  | '-' :: rest => (parseUnsigned rest).map Rat.neg
  | _ => parseUnsigned s

/-- Modelled from the spec (§4.2); gonx `Entry.FloatField` is not under
src/.  Retrieve a field as a number; `none` models the `FieldError` raised
when the field is absent or its text is not numeric. -/
def entryFloatField (e : Entry) (n : Chars) : Option ℚ :=
  match entryField e n with
  | some v => parseDecimal v
  | none => none

/-- Field names used by the aggregation loop (src/main.go:160-182). -/
def statusN : Chars := "status".toList

def requestN : Chars := "request".toList

def bodyBytesN : Chars := "body_bytes_sent".toList

def upstreamN : Chars := "upstream_response_time".toList

def requestTimeN : Chars := "request_time".toList

/-- The label names the metric families are registered with, in order
(src/main.go:50-52). -/
def metricLabelNames : List Chars := ["status".toList, "method".toList]

/-- Split on runs of whitespace, dropping empty fields (Go `strings.Fields`,
used at src/main.go:165).  `acc` is the reversed current word. -/
def fieldsAux : Chars → Chars → List Chars
  | [], acc => if acc = [] then [] else [acc.reverse]
  | c :: rest, acc =>
      if c.isWhitespace then
        if acc = [] then fieldsAux rest [] else acc.reverse :: fieldsAux rest []
      else fieldsAux rest (c :: acc)

/-- Go `strings.Fields`: the whitespace-delimited tokens of a string. -/
def stringsFields (s : Chars) : List Chars := fieldsAux s []

/-- The metric registry (src/main.go:16-26, initialised at 48-117).
Counter vectors and summary/histogram vectors are keyed by the label value
tuple; summaries and histograms record the multiset of observed values. -/
structure Metrics where
  countTotal : List Chars → Nat
  bytesTotal : List Chars → ℚ
  upstreamSeconds : List Chars → List ℚ
  upstreamSecondsHist : List Chars → List ℚ
  upstreamBytes : List Chars → ℚ
  responseSeconds : List Chars → List ℚ
  responseSecondsHist : List Chars → List ℚ
  responseBytes : List Chars → ℚ
  parseErrorsTotal : Nat

/-- The freshly initialised registry: all counters zero, no observations. -/
def initMetrics : Metrics where
  countTotal := fun _ => 0
  bytesTotal := fun _ => 0
  upstreamSeconds := fun _ => []
  upstreamSecondsHist := fun _ => []
  upstreamBytes := fun _ => 0
  responseSeconds := fun _ => []
  responseSecondsHist := fun _ => []
  responseBytes := fun _ => 0
  parseErrorsTotal := 0

/-- `CounterVec.WithLabelValues(k).Inc()`. -/
def incAt (f : List Chars → Nat) (k : List Chars) : List Chars → Nat :=
  fun l => if l = k then f l + 1 else f l

/-- `CounterVec.WithLabelValues(k).Add(v)`. -/
def addAt (f : List Chars → ℚ) (k : List Chars) (v : ℚ) : List Chars → ℚ :=
  fun l => if l = k then f l + v else f l

/-- `SummaryVec`/`HistogramVec` `.WithLabelValues(k).Observe(v)`. -/
def observeAt (f : List Chars → List ℚ) (k : List Chars) (v : ℚ) : List Chars → List ℚ :=
  fun l => if l = k then f l ++ [v] else f l

/-- Label value derivation, translated from src/main.go:158-167.
`labelValues` starts as two empty strings; index 0 is set to the status
field when present; when the request field is present the code runs
`chunks := strings.Fields(request); labelValues[1] = chunks[0]`, which
panics (index out of range) when `chunks` is empty — modelled by `none`. -/
def deriveLabelValues (e : Entry) : Option (List Chars) :=
  let s := (entryField e statusN).getD []
  match entryField e requestN with
  | none => some [s, []]
  | some req =>
      match stringsFields req with
      | [] => none
      | w :: _ => some [s, w]

/-- Metric updates for one accepted line, translated from
src/main.go:171-185: unconditional request-count increment, then three
independently guarded numeric updates. -/
def applyUpdates (e : Entry) (lv : List Chars) (m : Metrics) : Metrics :=
  let m1 := { m with countTotal := incAt m.countTotal lv }
  let m2 :=
    match entryFloatField e bodyBytesN with
    | some v => { m1 with bytesTotal := addAt m1.bytesTotal lv v }
    | none => m1
  let m3 :=
    match entryFloatField e upstreamN with
    | some v =>
        { m2 with
          upstreamSeconds := observeAt m2.upstreamSeconds lv v
          upstreamSecondsHist := observeAt m2.upstreamSecondsHist lv v }
    | none => m2
  match entryFloatField e requestTimeN with
  | some v =>
      { m3 with
        responseSeconds := observeAt m3.responseSeconds lv v
        responseSecondsHist := observeAt m3.responseSecondsHist lv v }
  | none => m3

/-- Outcome of processing one raw line.  `ok` is the normal path; `exited`
models `log.Fatalf` (which terminates the process, src/main.go:153);
`panicked` models the unrecovered `chunks[0]` index-out-of-range panic
(src/main.go:166).  Both abnormal outcomes carry the registry unchanged
since they fire before any metric update for the line. -/
inductive StepResult where
  | ok (m : Metrics)
  | exited (m : Metrics)
  | panicked (m : Metrics)

/-- The registry as left behind by a step, whatever the outcome. -/
def stepMetricsAny : StepResult → Metrics
  | StepResult.ok m => m
  | StepResult.exited m => m
  | StepResult.panicked m => m

/-- Process one parsed entry (src/main.go:158-185). -/
def processEntry (e : Entry) (m : Metrics) : StepResult :=
  match deriveLabelValues e with
  | none => StepResult.panicked m
  | some lv => StepResult.ok (applyUpdates e lv m)

/-- One iteration of the consumption loop, translated from
`processLogFile` (src/main.go:150-186).  On a parse failure the code calls
`log.Fatalf`, which exits the process; the counter increment and
`continue` on the following lines are unreachable, so the failure path
leaves the registry unchanged. -/
def processLine (plan : List FormatToken) (line : Chars) (m : Metrics) : StepResult :=
  match matchPlan plan line with
  | none => StepResult.exited m
  | some e => processEntry e m

/-- The default log format (src/main.go:44). -/
def defaultFormat : Chars :=
  ("$remote_addr - $remote_user [$time_local] \"$request\" $status $body_bytes_sent \"$http_referer\" \"$http_user_agent\" \"$http_x_forwarded_for\" $request_time").toList

/-- The plan compiled from the default format. -/
def defaultPlan : List FormatToken := scanFormat defaultFormat

/-- The placeholder names of a plan, in order. -/
def fieldNames : List FormatToken → List Chars
  | [] => []
  | FormatToken.literal _ :: rest => fieldNames rest
  | FormatToken.field n :: rest => n :: fieldNames rest

/-- Substitute values for the placeholders of a plan, producing the line
the template describes. -/
def render (σ : Chars → Chars) : List FormatToken → Chars
  | [] => []
  | FormatToken.literal l :: rest => l ++ render σ rest
  | FormatToken.field n :: rest => σ n ++ render σ rest

/-- The entry a faithful round trip should produce: each placeholder paired
with its substituted value, in plan order. -/
def entriesOf (σ : Chars → Chars) : List FormatToken → Entry
  | [] => []
  | FormatToken.literal _ :: rest => entriesOf σ rest
  | FormatToken.field n :: rest => (n, σ n) :: entriesOf σ rest

/-- `headNotIn l v`: the first character of `l` (the delimiter anchoring
the preceding field) does not occur in `v`. -/
def headNotIn (l v : Chars) : Bool :=
  match l with
  | [] => true
  | c :: _ => decide (c ∉ v)

/-- Delimiter-free substitution: the value substituted for a placeholder
never contains the first character of the literal that follows it. -/
def delimFreeB (σ : Chars → Chars) : List FormatToken → Bool
  | [] => true
  | [FormatToken.literal _] => true
  | [FormatToken.field _] => true
  | FormatToken.field n :: FormatToken.literal l :: rest =>
      headNotIn l (σ n) && delimFreeB σ (FormatToken.literal l :: rest)
  | FormatToken.field _ :: FormatToken.field m :: rest =>
      delimFreeB σ (FormatToken.field m :: rest)
  | FormatToken.literal _ :: t :: rest => delimFreeB σ (t :: rest)

/-- Every literal token of the plan is nonempty (true of every scanned
plan: literal runs are nonempty by construction). -/
def literalsNonempty : List FormatToken → Bool
  | [] => true
  | FormatToken.literal l :: rest => !l.isEmpty && literalsNonempty rest
  | FormatToken.field _ :: rest => literalsNonempty rest

/-! ### Helper lemmas about the matcher -/

theorem consumeLit_append : ∀ (l r : Chars), consumeLit l (l ++ r) = some r
  | [], _ => rfl
  | c :: cs, r => by
      show consumeLit (c :: cs) (c :: (cs ++ r)) = some r
      simp only [consumeLit, if_pos rfl]
      exact consumeLit_append cs r

theorem consumeLit_head_ne (c a : Char) (l rest : Chars) (h : c ≠ a) :
    consumeLit (c :: l) (a :: rest) = none := by
  simp [consumeLit, h]

theorem splitOnLit_here (c : Char) (l r : Chars) :
    splitOnLit (c :: l) ((c :: l) ++ r) = some ([], r) := by
  show splitOnLit (c :: l) (c :: (l ++ r)) = some ([], r)
  have h : consumeLit (c :: l) (c :: (l ++ r)) = some r := consumeLit_append (c :: l) r
  simp only [splitOnLit, h]

theorem splitOnLit_skip (lit : Chars) (a : Char) (rest : Chars)
    (h : consumeLit lit (a :: rest) = none) :
    splitOnLit lit (a :: rest) =
      match splitOnLit lit rest with
      | some (pre, post) => some (a :: pre, post)
      | none => none := by
  simp only [splitOnLit, h]

theorem splitOnLit_append (c : Char) (l : Chars) :
    ∀ (v r : Chars), c ∉ v → splitOnLit (c :: l) (v ++ ((c :: l) ++ r)) = some (v, r)
  | [], r, _ => by
      show splitOnLit (c :: l) ((c :: l) ++ r) = some ([], r)
      exact splitOnLit_here c l r
  | a :: v, r, hc => by
      have hca : c ≠ a := fun h => hc (h ▸ List.mem_cons_self a v)
      have hcv : c ∉ v := fun h => hc (List.mem_cons_of_mem a h)
      show splitOnLit (c :: l) (a :: (v ++ ((c :: l) ++ r))) = some (a :: v, r)
      rw [splitOnLit_skip _ _ _ (consumeLit_head_ne c a l _ hca)]
      rw [splitOnLit_append c l v r hcv]

theorem hasAdjacentFields_tail (t : FormatToken) (rest : List FormatToken)
    (h : hasAdjacentFields (t :: rest) = false) : hasAdjacentFields rest = false := by
  cases rest with
  | nil => rfl
  | cons u r =>
      cases t with
      | literal l => simpa [hasAdjacentFields] using h
      | field n =>
          cases u with
          | literal l => simpa [hasAdjacentFields] using h
          | field m => simp [hasAdjacentFields] at h

theorem delimFreeB_tail (σ : Chars → Chars) (t : FormatToken) (rest : List FormatToken)
    (h : delimFreeB σ (t :: rest) = true) : delimFreeB σ rest = true := by
  cases rest with
  | nil => rfl
  | cons u r =>
      cases t with
      | literal l => simpa [delimFreeB] using h
      | field n =>
          cases u with
          | literal l =>
              simp only [delimFreeB, Bool.and_eq_true] at h
              exact h.2
          | field m => simpa [delimFreeB] using h

theorem literalsNonempty_tail (t : FormatToken) (rest : List FormatToken)
    (h : literalsNonempty (t :: rest) = true) : literalsNonempty rest = true := by
  cases t with
  | literal l =>
      simp only [literalsNonempty, Bool.and_eq_true] at h
      exact h.2
  | field n => simpa [literalsNonempty] using h

/-- Round trip at the plan level: matching a line generated by substituting
delimiter-free values into the plan recovers exactly those values. -/
theorem matchPlan_render (σ : Chars → Chars) :
    ∀ plan : List FormatToken,
      literalsNonempty plan = true →
      hasAdjacentFields plan = false →
      delimFreeB σ plan = true →
      matchPlan plan (render σ plan) = some (entriesOf σ plan)
  | [], _, _, _ => by simp [matchPlan, render, entriesOf]
  | FormatToken.literal l :: rest, h1, h2, h3 => by
      have ih := matchPlan_render σ rest (literalsNonempty_tail _ _ h1)
        (hasAdjacentFields_tail _ _ h2) (delimFreeB_tail σ _ _ h3)
      show matchPlan (FormatToken.literal l :: rest) (l ++ render σ rest)
        = some (entriesOf σ rest)
      simp only [matchPlan, consumeLit_append, ih]
  | [FormatToken.field n], _, _, _ => by
      show matchPlan [FormatToken.field n] (σ n ++ render σ []) = some [(n, σ n)]
      simp [matchPlan, render]
  | FormatToken.field n :: FormatToken.literal l :: rest, h1, h2, h3 => by
      cases l with
      | nil => simp [literalsNonempty] at h1
      | cons c l' =>
          have hh : c ∉ σ n := by
            simp only [delimFreeB, headNotIn, Bool.and_eq_true, decide_eq_true_eq] at h3
            exact h3.1
          have ih := matchPlan_render σ rest
            (literalsNonempty_tail _ _ (literalsNonempty_tail _ _ h1))
            (hasAdjacentFields_tail _ _ (hasAdjacentFields_tail _ _ h2))
            (delimFreeB_tail σ _ _ (delimFreeB_tail σ _ _ h3))
          show matchPlan (FormatToken.field n :: FormatToken.literal (c :: l') :: rest)
              (σ n ++ ((c :: l') ++ render σ rest)) = some ((n, σ n) :: entriesOf σ rest)
          simp only [matchPlan]
          rw [splitOnLit_append c l' (σ n) (render σ rest) hh]
          simp only [ih]
  | FormatToken.field n :: FormatToken.field m :: rest, _, h2, _ => by
      simp [hasAdjacentFields] at h2

/-! ### Helper lemmas about the scanner -/

theorem literalsNonempty_append :
    ∀ xs ys : List FormatToken,
      literalsNonempty (xs ++ ys) = (literalsNonempty xs && literalsNonempty ys)
  | [], ys => by simp [literalsNonempty]
  | FormatToken.literal l :: xs, ys => by
      simp [literalsNonempty, literalsNonempty_append xs ys, Bool.and_assoc]
  | FormatToken.field n :: xs, ys => by
      simp [literalsNonempty, literalsNonempty_append xs ys]

theorem flushLit_literalsNonempty (acc : Chars) : literalsNonempty (flushLit acc) = true := by
  unfold flushLit
  split
  · rfl
  · rename_i h
    simp [literalsNonempty, List.isEmpty_iff, h]

theorem scanAux_literalsNonempty :
    ∀ (s : Chars) (st : ScanState), literalsNonempty (scanAux s st) = true
  | [], ScanState.lit acc => flushLit_literalsNonempty acc
  | [], ScanState.fld _ => rfl
  | c :: rest, ScanState.lit acc => by
      simp only [scanAux]
      split
      · rw [literalsNonempty_append, flushLit_literalsNonempty,
          scanAux_literalsNonempty rest (ScanState.fld [])]
        rfl
      · exact scanAux_literalsNonempty rest (ScanState.lit (c :: acc))
  | c :: rest, ScanState.fld acc => by
      simp only [scanAux]
      split
      · simpa [literalsNonempty] using scanAux_literalsNonempty rest (ScanState.fld [])
      · split
        · exact scanAux_literalsNonempty rest (ScanState.fld (c :: acc))
        · simpa [literalsNonempty] using scanAux_literalsNonempty rest (ScanState.lit [c])

theorem scanFormat_literalsNonempty (fmt : Chars) :
    literalsNonempty (scanFormat fmt) = true :=
  scanAux_literalsNonempty fmt (ScanState.lit [])

theorem hasAdjacentFields_cons (t : FormatToken) (ys : List FormatToken)
    (h : hasAdjacentFields ys = true) : hasAdjacentFields (t :: ys) = true := by
  cases ys with
  | nil => simp [hasAdjacentFields] at h
  | cons u r =>
      cases t with
      | literal l => simpa [hasAdjacentFields] using h
      | field n =>
          cases u with
          | literal l => simpa [hasAdjacentFields] using h
          | field m => simp [hasAdjacentFields]

theorem hasAdjacentFields_append (xs ys : List FormatToken)
    (h : hasAdjacentFields ys = true) : hasAdjacentFields (xs ++ ys) = true := by
  induction xs with
  | nil => exact h
  | cons t xs ih => exact hasAdjacentFields_cons t (xs ++ ys) ih

theorem scanAux_fld_head :
    ∀ (s : Chars) (acc : Chars),
      ∃ X tl, scanAux s (ScanState.fld acc) = FormatToken.field X :: tl
  | [], acc => ⟨acc.reverse, [], rfl⟩
  | c :: rest, acc => by
      simp only [scanAux]
      split
      · exact ⟨acc.reverse, scanAux rest (ScanState.fld []), rfl⟩
      · split
        · exact scanAux_fld_head rest (c :: acc)
        · exact ⟨acc.reverse, scanAux rest (ScanState.lit [c]), rfl⟩

theorem scanAux_ident :
    ∀ (n1 acc rest : Chars), n1.all isIdentChar = true →
      scanAux (n1 ++ rest) (ScanState.fld acc)
        = scanAux rest (ScanState.fld (n1.reverse ++ acc))
  | [], acc, rest, _ => by simp
  | c :: n1, acc, rest, h => by
      simp only [List.all_cons, Bool.and_eq_true] at h
      have hc : isIdentChar c = true := h.1
      have hdollar : c ≠ '$' := by
        intro h'
        rw [h'] at hc
        exact absurd hc (by decide)
      show scanAux (c :: (n1 ++ rest)) (ScanState.fld acc)
        = scanAux rest (ScanState.fld ((c :: n1).reverse ++ acc))
      simp only [scanAux, if_neg hdollar, if_pos hc]
      rw [scanAux_ident n1 (c :: acc) rest h.2]
      simp [List.append_assoc]

theorem scanAux_adjacent :
    ∀ (pre : Chars) (st : ScanState) (tail : Chars),
      hasAdjacentFields (scanAux tail (ScanState.fld [])) = true →
      hasAdjacentFields (scanAux (pre ++ '$' :: tail) st) = true
  | [], st, tail, h => by
      cases st with
      | lit acc =>
          show hasAdjacentFields (scanAux ('$' :: tail) (ScanState.lit acc)) = true
          simp only [scanAux, if_pos rfl]
          exact hasAdjacentFields_append _ _ h
      | fld acc =>
          show hasAdjacentFields (scanAux ('$' :: tail) (ScanState.fld acc)) = true
          simp only [scanAux, if_pos rfl]
          exact hasAdjacentFields_cons _ _ h
  | c :: pre, st, tail, h => by
      cases st with
      | lit acc =>
          show hasAdjacentFields (scanAux (c :: (pre ++ '$' :: tail)) (ScanState.lit acc)) = true
          simp only [scanAux]
          split
          · exact hasAdjacentFields_append _ _ (scanAux_adjacent pre (ScanState.fld []) tail h)
          · exact scanAux_adjacent pre (ScanState.lit (c :: acc)) tail h
      | fld acc =>
          show hasAdjacentFields (scanAux (c :: (pre ++ '$' :: tail)) (ScanState.fld acc)) = true
          simp only [scanAux]
          split
          · exact hasAdjacentFields_cons _ _ (scanAux_adjacent pre (ScanState.fld []) tail h)
          · split
            · exact scanAux_adjacent pre (ScanState.fld (c :: acc)) tail h
            · exact hasAdjacentFields_cons _ _ (scanAux_adjacent pre (ScanState.lit [c]) tail h)

/-! ### Helper lemmas about entries and the aggregator -/

theorem entriesOf_lookup (σ : Chars → Chars) :
    ∀ plan : List FormatToken, ∀ n : Chars, n ∈ fieldNames plan →
      entryField (entriesOf σ plan) n = some (σ n)
  | [], n, h => absurd h (List.not_mem_nil n)
  | FormatToken.literal _ :: rest, n, h => entriesOf_lookup σ rest n h
  | FormatToken.field m :: rest, n, h => by
      by_cases hmn : m = n
      · subst hmn
        simp [entriesOf, entryField, List.find?]
      · have hn : n ∈ fieldNames rest := by
          rcases List.mem_cons.mp h with h' | h'
          · exact absurd h'.symm hmn
          · exact h'
        have ih := entriesOf_lookup σ rest n hn
        simp only [entriesOf, entryField, List.find?] at ih ⊢
        rw [show ((m, σ m).1 == n) = false from beq_eq_false_iff_ne.mpr hmn]
        exact ih

theorem matchPlan_names :
    ∀ (plan : List FormatToken) (line : Chars) (e : Entry),
      matchPlan plan line = some e → ∀ p, p ∈ e → p.1 ∈ fieldNames plan
  | [], line, e => by
      intro h p hp
      by_cases hl : line = []
      · subst hl
        have h' : (some [] : Option Entry) = some e := h
        simp only [Option.some.injEq] at h'
        subst h'
        exact absurd hp (List.not_mem_nil p)
      · simp [matchPlan, hl] at h
  | FormatToken.literal l :: plan, line, e => by
      intro h p hp
      simp only [matchPlan] at h
      cases hc : consumeLit l line with
      | none => rw [hc] at h; exact absurd h (by simp)
      | some rest' =>
          rw [hc] at h
          exact matchPlan_names plan rest' e h p hp
  | [FormatToken.field n], line, e => by
      intro h p hp
      simp only [matchPlan, Option.some.injEq] at h
      subst h
      rcases List.mem_singleton.mp hp with h'
      rw [h']
      simp [fieldNames]
  | FormatToken.field n :: FormatToken.literal l :: plan, line, e => by
      intro h p hp
      simp only [matchPlan] at h
      cases hs : splitOnLit l line with
      | none => rw [hs] at h; exact absurd h (by simp)
      | some vp =>
          obtain ⟨v, post⟩ := vp
          rw [hs] at h
          have h' : (match matchPlan plan post with
              | some entry => some ((n, v) :: entry)
              | none => none) = some e := h
          cases hm : matchPlan plan post with
          | none => rw [hm] at h'; exact absurd h' (by simp)
          | some entry =>
              rw [hm] at h'
              simp only [Option.some.injEq] at h'
              subst h'
              rcases List.mem_cons.mp hp with h' | h'
              · rw [h']
                simp [fieldNames]
              · have := matchPlan_names plan post entry hm p h'
                simp only [fieldNames] at this ⊢
                exact List.mem_cons_of_mem n this
  | FormatToken.field _ :: FormatToken.field _ :: _, line, e => by
      intro h
      simp [matchPlan] at h

theorem entryField_eq_none (e : Entry) (n : Chars)
    (h : ∀ p, p ∈ e → p.1 ≠ n) : entryField e n = none := by
  unfold entryField
  cases hf : e.find? (fun p => p.1 == n) with
  | none => rfl
  | some p =>
      have hmem : p ∈ e := List.mem_of_find?_eq_some hf
      have hpred := List.find?_some hf
      simp only [beq_iff_eq] at hpred
      exact absurd hpred (h p hmem)

theorem applyUpdates_countTotal (e : Entry) (lv : List Chars) (m : Metrics) :
    (applyUpdates e lv m).countTotal = incAt m.countTotal lv := by
  unfold applyUpdates
  cases hb : entryFloatField e bodyBytesN <;>
    cases hu : entryFloatField e upstreamN <;>
      cases hr : entryFloatField e requestTimeN <;> simp

theorem applyUpdates_bytesTotal (e : Entry) (lv : List Chars) (m : Metrics) :
    (applyUpdates e lv m).bytesTotal =
      match entryFloatField e bodyBytesN with
      | some v => addAt m.bytesTotal lv v
      | none => m.bytesTotal := by
  unfold applyUpdates
  cases hb : entryFloatField e bodyBytesN <;>
    cases hu : entryFloatField e upstreamN <;>
      cases hr : entryFloatField e requestTimeN <;> simp

theorem applyUpdates_upstreamSeconds (e : Entry) (lv : List Chars) (m : Metrics) :
    (applyUpdates e lv m).upstreamSeconds =
      match entryFloatField e upstreamN with
      | some v => observeAt m.upstreamSeconds lv v
      | none => m.upstreamSeconds := by
  unfold applyUpdates
  cases hb : entryFloatField e bodyBytesN <;>
    cases hu : entryFloatField e upstreamN <;>
      cases hr : entryFloatField e requestTimeN <;> simp

theorem applyUpdates_upstreamSecondsHist (e : Entry) (lv : List Chars) (m : Metrics) :
    (applyUpdates e lv m).upstreamSecondsHist =
      match entryFloatField e upstreamN with
      | some v => observeAt m.upstreamSecondsHist lv v
      | none => m.upstreamSecondsHist := by
  unfold applyUpdates
  cases hb : entryFloatField e bodyBytesN <;>
    cases hu : entryFloatField e upstreamN <;>
      cases hr : entryFloatField e requestTimeN <;> simp

theorem applyUpdates_responseSeconds (e : Entry) (lv : List Chars) (m : Metrics) :
    (applyUpdates e lv m).responseSeconds =
      match entryFloatField e requestTimeN with
      | some v => observeAt m.responseSeconds lv v
      | none => m.responseSeconds := by
  unfold applyUpdates
  cases hb : entryFloatField e bodyBytesN <;>
    cases hu : entryFloatField e upstreamN <;>
      cases hr : entryFloatField e requestTimeN <;> simp

theorem applyUpdates_responseSecondsHist (e : Entry) (lv : List Chars) (m : Metrics) :
    (applyUpdates e lv m).responseSecondsHist =
      match entryFloatField e requestTimeN with
      | some v => observeAt m.responseSecondsHist lv v
      | none => m.responseSecondsHist := by
  unfold applyUpdates
  cases hb : entryFloatField e bodyBytesN <;>
    cases hu : entryFloatField e upstreamN <;>
      cases hr : entryFloatField e requestTimeN <;> simp

theorem applyUpdates_untouched (e : Entry) (lv : List Chars) (m : Metrics) :
    (applyUpdates e lv m).parseErrorsTotal = m.parseErrorsTotal
    ∧ (applyUpdates e lv m).upstreamBytes = m.upstreamBytes
    ∧ (applyUpdates e lv m).responseBytes = m.responseBytes := by
  unfold applyUpdates
  cases hb : entryFloatField e bodyBytesN <;>
    cases hu : entryFloatField e upstreamN <;>
      cases hr : entryFloatField e requestTimeN <;> simp

theorem processLine_ok (plan : List FormatToken) (line : Chars) (e : Entry)
    (lv : List Chars) (m : Metrics) (hm : matchPlan plan line = some e)
    (hlv : deriveLabelValues e = some lv) :
    processLine plan line m = StepResult.ok (applyUpdates e lv m) := by
  simp [processLine, hm, processEntry, hlv]

/-- Frame property of one line's updates: metric vector entries at any key
other than the line's label tuple are untouched. -/
theorem applyUpdates_frame (e : Entry) (lv : List Chars) (m : Metrics)
    (k : List Chars) (hk : k ≠ lv) :
    (applyUpdates e lv m).countTotal k = m.countTotal k
    ∧ (applyUpdates e lv m).bytesTotal k = m.bytesTotal k
    ∧ (applyUpdates e lv m).upstreamSeconds k = m.upstreamSeconds k
    ∧ (applyUpdates e lv m).upstreamSecondsHist k = m.upstreamSecondsHist k
    ∧ (applyUpdates e lv m).responseSeconds k = m.responseSeconds k
    ∧ (applyUpdates e lv m).responseSecondsHist k = m.responseSecondsHist k := by
  unfold applyUpdates
  cases hb : entryFloatField e bodyBytesN <;>
    cases hu : entryFloatField e upstreamN <;>
      cases hr : entryFloatField e requestTimeN <;>
        simp [incAt, addAt, observeAt, hk]

/-! ### Claims -/

/-- Claim C1 (code bug, src/main.go:153-155): on a raw line the matcher
rejects, the claim says the pipeline logs, increments the parse-error
counter by exactly 1 and continues; the code instead calls `log.Fatalf`,
which terminates the process, so the increment and `continue` are
unreachable.  Evaluated at the spec's own example: template
`$status $request_time`, line `abc`: matching fails, the step exits the
process and the parse-error counter is still 0. -/
theorem C1_parse_failure_fatal_exit :
    matchPlan (scanFormat ("$status $request_time").toList) ("abc").toList = none
    ∧ processLine (scanFormat ("$status $request_time").toList) ("abc").toList initMetrics
        = StepResult.exited initMetrics
    ∧ (stepMetricsAny (processLine (scanFormat ("$status $request_time").toList)
        ("abc").toList initMetrics)).parseErrorsTotal = 0 :=
  ⟨by decide, rfl, rfl⟩

/-- Claim C2 (round trip): for every template whose compiled plan has no
two adjacent placeholders and every delimiter-free substitution (no value
contains the first character of the literal that follows its placeholder),
compiling succeeds and matching the rendered line yields the entry pairing
each placeholder with exactly the substituted value. -/
theorem C2_round_trip (fmt : Chars) (σ : Chars → Chars)
    (hadj : hasAdjacentFields (scanFormat fmt) = false)
    (hfree : delimFreeB σ (scanFormat fmt) = true) :
    compileFormat fmt = Except.ok (scanFormat fmt)
    ∧ matchPlan (scanFormat fmt) (render σ (scanFormat fmt))
        = some (entriesOf σ (scanFormat fmt))
    ∧ ∀ n, n ∈ fieldNames (scanFormat fmt) →
        entryField (entriesOf σ (scanFormat fmt)) n = some (σ n) := by
  refine ⟨?_, ?_, ?_⟩
  · simp [compileFormat, hadj]
  · exact matchPlan_render σ (scanFormat fmt) (scanFormat_literalsNonempty fmt) hadj hfree
  · exact fun n hn => entriesOf_lookup σ (scanFormat fmt) n hn

def w2fmt : Chars := ("$a [$b]").toList

def w2sub : Chars → Chars := fun n => if n = ['a'] then ("42").toList else ("x7").toList

/-- Witness for C2 at the template `$a [$b]` with values 42 and x7. -/
theorem C2_round_trip_witness :
    (hasAdjacentFields (scanFormat w2fmt) = false
      ∧ delimFreeB w2sub (scanFormat w2fmt) = true)
    ∧ (compileFormat w2fmt = Except.ok (scanFormat w2fmt)
      ∧ matchPlan (scanFormat w2fmt) (render w2sub (scanFormat w2fmt))
          = some (entriesOf w2sub (scanFormat w2fmt))
      ∧ ∀ n, n ∈ fieldNames (scanFormat w2fmt) →
          entryField (entriesOf w2sub (scanFormat w2fmt)) n = some (w2sub n)) :=
  ⟨⟨by decide, by decide⟩, C2_round_trip w2fmt w2sub (by decide) (by decide)⟩

/-- Claim C3 (code bug, src/main.go:164-166): the claim says label
derivation is total and the method label is `""` when the request field is
empty; the code instead runs `chunks := strings.Fields(request);
labelValues[1] = chunks[0]`, which panics on the empty slice.  Evaluated
at template `$status "$request"`, line `200 ""`: the line is accepted with
an empty request value, derivation hits the panic, the line aborts with no
metric update. -/
theorem C3_empty_request_panics :
    matchPlan (scanFormat ("$status \"$request\"").toList) ("200 \"\"").toList
      = some [(statusN, ("200").toList), (requestN, [])]
    ∧ deriveLabelValues [(statusN, ("200").toList), (requestN, [])] = none
    ∧ processLine (scanFormat ("$status \"$request\"").toList) ("200 \"\"").toList initMetrics
        = StepResult.panicked initMetrics :=
  ⟨by decide, by decide, rfl⟩

/-- Counterexample to claim C4 as stated: the line `500 " "` is accepted
by the matcher for template `$status "$request"` (request value a single
space), yet the step panics in label derivation and the total-request
counter is not incremented for any label tuple. -/
theorem C4_counterexample :
    (matchPlan (scanFormat ("$status \"$request\"").toList) ("500 \" \"").toList).isSome = true
    ∧ processLine (scanFormat ("$status \"$request\"").toList) ("500 \" \"").toList initMetrics
        = StepResult.panicked initMetrics
    ∧ (stepMetricsAny (processLine (scanFormat ("$status \"$request\"").toList)
        ("500 \" \"").toList initMetrics)).countTotal [("500").toList, []] = 0 :=
  ⟨by decide, rfl, rfl⟩

/-- Claim C4 as amended: for every accepted line whose label derivation
succeeds (the request field, when present, contains a non-whitespace
token), the total-request counter for the derived label tuple is
incremented by exactly 1 and no other counter entry changes — with no
hypothesis on the body-size or timing fields. -/
theorem C4_count_increment (plan : List FormatToken) (line : Chars) (e : Entry)
    (lv : List Chars) (m : Metrics) (hm : matchPlan plan line = some e)
    (hlv : deriveLabelValues e = some lv) :
    processLine plan line m = StepResult.ok (applyUpdates e lv m)
    ∧ (applyUpdates e lv m).countTotal lv = m.countTotal lv + 1
    ∧ ∀ k, k ≠ lv → (applyUpdates e lv m).countTotal k = m.countTotal k := by
  refine ⟨processLine_ok plan line e lv m hm hlv, ?_, ?_⟩
  · rw [applyUpdates_countTotal]
    simp [incAt]
  · intro k hk
    rw [applyUpdates_countTotal]
    simp [incAt, hk]

def w4plan : List FormatToken := scanFormat ("$status $body_bytes_sent").toList

def w4line : Chars := ("404 xyz").toList

def w4entry : Entry := [(statusN, ("404").toList), (bodyBytesN, ("xyz").toList)]

def w4lv : List Chars := [("404").toList, []]

/-- Witness for C4 at line `404 xyz`: the body-size field is non-numeric,
the counter is still incremented by exactly 1. -/
theorem C4_count_increment_witness :
    (matchPlan w4plan w4line = some w4entry
      ∧ deriveLabelValues w4entry = some w4lv)
    ∧ (processLine w4plan w4line initMetrics
        = StepResult.ok (applyUpdates w4entry w4lv initMetrics)
      ∧ (applyUpdates w4entry w4lv initMetrics).countTotal w4lv
          = initMetrics.countTotal w4lv + 1
      ∧ ∀ k, k ≠ w4lv →
          (applyUpdates w4entry w4lv initMetrics).countTotal k
            = initMetrics.countTotal k) :=
  ⟨⟨by decide, by decide⟩,
    C4_count_increment w4plan w4line w4entry w4lv initMetrics (by decide) (by decide)⟩

/-- Counterexample to claim C5 as stated: for template `$status "$request"`
and the accepted line `204 "  "`, the body-size field is absent
(FieldError), yet no other metric update occurs either and the line is
aborted: label derivation panics on the whitespace-only request value. -/
theorem C5_counterexample :
    matchPlan (scanFormat ("$status \"$request\"").toList) ("204 \"  \"").toList
      = some [(statusN, ("204").toList), (requestN, ("  ").toList)]
    ∧ entryFloatField [(statusN, ("204").toList), (requestN, ("  ").toList)] bodyBytesN = none
    ∧ processLine (scanFormat ("$status \"$request\"").toList) ("204 \"  \"").toList initMetrics
        = StepResult.panicked initMetrics :=
  ⟨by decide, by decide, rfl⟩

/-- Claim C5 as amended: for every accepted line whose label derivation
succeeds, the three numeric extractions are independent: each of the five
numeric metric families ends up updated exactly when its own field parses,
with the value of its own field only, regardless of the other two fields,
and the line completes normally. -/
theorem C5_numeric_independence (plan : List FormatToken) (line : Chars) (e : Entry)
    (lv : List Chars) (m : Metrics) (hm : matchPlan plan line = some e)
    (hlv : deriveLabelValues e = some lv) :
    processLine plan line m = StepResult.ok (applyUpdates e lv m)
    ∧ (applyUpdates e lv m).countTotal = incAt m.countTotal lv
    ∧ (applyUpdates e lv m).bytesTotal =
        (match entryFloatField e bodyBytesN with
         | some v => addAt m.bytesTotal lv v
         | none => m.bytesTotal)
    ∧ (applyUpdates e lv m).upstreamSeconds =
        (match entryFloatField e upstreamN with
         | some v => observeAt m.upstreamSeconds lv v
         | none => m.upstreamSeconds)
    ∧ (applyUpdates e lv m).upstreamSecondsHist =
        (match entryFloatField e upstreamN with
         | some v => observeAt m.upstreamSecondsHist lv v
         | none => m.upstreamSecondsHist)
    ∧ (applyUpdates e lv m).responseSeconds =
        (match entryFloatField e requestTimeN with
         | some v => observeAt m.responseSeconds lv v
         | none => m.responseSeconds)
    ∧ (applyUpdates e lv m).responseSecondsHist =
        (match entryFloatField e requestTimeN with
         | some v => observeAt m.responseSecondsHist lv v
         | none => m.responseSecondsHist) :=
  ⟨processLine_ok plan line e lv m hm hlv,
    applyUpdates_countTotal e lv m,
    applyUpdates_bytesTotal e lv m,
    applyUpdates_upstreamSeconds e lv m,
    applyUpdates_upstreamSecondsHist e lv m,
    applyUpdates_responseSeconds e lv m,
    applyUpdates_responseSecondsHist e lv m⟩

def w5plan : List FormatToken := scanFormat ("$status $body_bytes_sent $request_time").toList

def w5line : Chars := ("200 abc 0.5").toList

def w5entry : Entry :=
  [(statusN, ("200").toList), (bodyBytesN, ("abc").toList), (requestTimeN, ("0.5").toList)]

def w5lv : List Chars := [("200").toList, []]

/-- Witness for C5 at line `200 abc 0.5`: body size is non-numeric and
skipped, response time is recorded, the line completes. -/
theorem C5_numeric_independence_witness :
    (matchPlan w5plan w5line = some w5entry
      ∧ deriveLabelValues w5entry = some w5lv)
    ∧ (processLine w5plan w5line initMetrics
        = StepResult.ok (applyUpdates w5entry w5lv initMetrics)
      ∧ (applyUpdates w5entry w5lv initMetrics).countTotal = incAt initMetrics.countTotal w5lv
      ∧ (applyUpdates w5entry w5lv initMetrics).bytesTotal =
          (match entryFloatField w5entry bodyBytesN with
           | some v => addAt initMetrics.bytesTotal w5lv v
           | none => initMetrics.bytesTotal)
      ∧ (applyUpdates w5entry w5lv initMetrics).upstreamSeconds =
          (match entryFloatField w5entry upstreamN with
           | some v => observeAt initMetrics.upstreamSeconds w5lv v
           | none => initMetrics.upstreamSeconds)
      ∧ (applyUpdates w5entry w5lv initMetrics).upstreamSecondsHist =
          (match entryFloatField w5entry upstreamN with
           | some v => observeAt initMetrics.upstreamSecondsHist w5lv v
           | none => initMetrics.upstreamSecondsHist)
      ∧ (applyUpdates w5entry w5lv initMetrics).responseSeconds =
          (match entryFloatField w5entry requestTimeN with
           | some v => observeAt initMetrics.responseSeconds w5lv v
           | none => initMetrics.responseSeconds)
      ∧ (applyUpdates w5entry w5lv initMetrics).responseSecondsHist =
          (match entryFloatField w5entry requestTimeN with
           | some v => observeAt initMetrics.responseSecondsHist w5lv v
           | none => initMetrics.responseSecondsHist)) :=
  ⟨⟨by decide, by decide⟩,
    C5_numeric_independence w5plan w5line w5entry w5lv initMetrics (by decide) (by decide)⟩

/-- Claim C6: every template containing two adjacent placeholders — a `$`
sigil, an identifier run, then immediately another `$` sigil — scans to a
plan with two consecutive Field tokens and fails compilation with the
adjacent-fields ConfigError.  Compilation runs exactly once, at process
startup (src/main.go:139), before any line is processed, so the failure is
fatal at startup rather than a per-line error. -/
theorem C6_adjacent_placeholders_fatal (pre n1 tail : Chars)
    (h : n1.all isIdentChar = true) :
    compileFormat (pre ++ '$' :: (n1 ++ '$' :: tail))
      = Except.error ConfigError.adjacentFields := by
  have key : hasAdjacentFields (scanAux (n1 ++ '$' :: tail) (ScanState.fld [])) = true := by
    rw [scanAux_ident n1 [] ('$' :: tail) h]
    simp only [scanAux, if_pos rfl]
    obtain ⟨X, tl, hB⟩ := scanAux_fld_head tail []
    rw [hB]
    simp [hasAdjacentFields]
  have hadj : hasAdjacentFields (scanFormat (pre ++ '$' :: (n1 ++ '$' :: tail))) = true :=
    scanAux_adjacent pre (ScanState.lit []) (n1 ++ '$' :: tail) key
  simp [compileFormat, hadj]

/-- Witness for C6 at the template `x $ab$cd y`. -/
theorem C6_adjacent_placeholders_fatal_witness :
    (("ab").toList.all isIdentChar = true)
    ∧ compileFormat (("x ").toList ++ '$' :: (("ab").toList ++ '$' :: ("cd y").toList))
        = Except.error ConfigError.adjacentFields :=
  ⟨by decide,
    C6_adjacent_placeholders_fatal (("x ").toList) (("ab").toList) (("cd y").toList) (by decide)⟩

def c7plan : List FormatToken := scanFormat ("$status $request_time").toList

def c7line : Chars := ("200 0.123").toList

def c7entry : Entry := [(statusN, ("200").toList), (requestTimeN, ("0.123").toList)]

def c7lv : List Chars := [("200").toList, []]

def c7res : Metrics := stepMetricsAny (processLine c7plan c7line initMetrics)

/-- Claim C7: for template `$status $request_time` and line `200 0.123`,
matching yields exactly the fields status = 200 and request_time = 0.123;
processing the line from a fresh registry increments the total-request
counter for the label tuple (status 200, method empty) to 1, records 0.123
in both the response-time summary and histogram, and touches nothing
else. -/
theorem C7_concrete_line :
    matchPlan c7plan c7line = some c7entry
    ∧ processLine c7plan c7line initMetrics
        = StepResult.ok (applyUpdates c7entry c7lv initMetrics)
    ∧ c7res.countTotal c7lv = 1
    ∧ c7res.responseSeconds c7lv = [mkRat 123 1000]
    ∧ c7res.responseSecondsHist c7lv = [mkRat 123 1000]
    ∧ c7res.bytesTotal c7lv = 0
    ∧ c7res.upstreamSeconds c7lv = []
    ∧ c7res.upstreamSecondsHist c7lv = []
    ∧ c7res.parseErrorsTotal = 0 :=
  ⟨by decide, rfl, by decide, by decide, by decide, by decide, by decide, by decide, rfl⟩

/-- Claim C8: numeric extraction is a pure function of the entry and the
field name, so extracting the same field from the same entry twice yields
the same value and the same error status both times. -/
theorem C8_numeric_extraction_idempotent (e : Entry) (n : Chars) :
    entryFloatField e n = entryFloatField e n
    ∧ ((entryFloatField e n).isSome = (entryFloatField e n).isSome) :=
  ⟨rfl, rfl⟩

/-- Claim C9: every metric update of a processed line is keyed by the one
label tuple derived for that line; the tuple has the registered size (2)
and order: index 0 is the status field value (empty string when absent),
index 1 the first whitespace token of the request field (empty string when
the request field is absent), matching the registration order
`[status, method]` of src/main.go:50-52; every vector entry at any other
key is untouched. -/
theorem C9_label_tuple_consistency (plan : List FormatToken) (line : Chars) (e : Entry)
    (lv : List Chars) (m : Metrics)
    (hm : matchPlan plan line = some e) (hlv : deriveLabelValues e = some lv) :
    processLine plan line m = StepResult.ok (applyUpdates e lv m)
    ∧ metricLabelNames = [("status").toList, ("method").toList]
    ∧ lv.length = metricLabelNames.length
    ∧ lv.head? = some ((entryField e statusN).getD [])
    ∧ (entryField e requestN = none → lv = [(entryField e statusN).getD [], []])
    ∧ (∀ req w ws, entryField e requestN = some req → stringsFields req = w :: ws →
        lv = [(entryField e statusN).getD [], w])
    ∧ ∀ k, k ≠ lv →
        (applyUpdates e lv m).countTotal k = m.countTotal k
        ∧ (applyUpdates e lv m).bytesTotal k = m.bytesTotal k
        ∧ (applyUpdates e lv m).upstreamSeconds k = m.upstreamSeconds k
        ∧ (applyUpdates e lv m).upstreamSecondsHist k = m.upstreamSecondsHist k
        ∧ (applyUpdates e lv m).responseSeconds k = m.responseSeconds k
        ∧ (applyUpdates e lv m).responseSecondsHist k = m.responseSecondsHist k := by
  have hstruct : (lv = [(entryField e statusN).getD [], []] ∧ entryField e requestN = none)
      ∨ ∃ req w ws, entryField e requestN = some req ∧ stringsFields req = w :: ws
          ∧ lv = [(entryField e statusN).getD [], w] := by
    cases hreq : entryField e requestN with
    | none =>
        left
        simp only [deriveLabelValues, hreq, Option.some.injEq] at hlv
        exact ⟨hlv.symm, rfl⟩
    | some req =>
        right
        simp only [deriveLabelValues, hreq] at hlv
        cases hw : stringsFields req with
        | nil =>
            rw [hw] at hlv
            exact absurd hlv (by simp)
        | cons w ws =>
            rw [hw] at hlv
            simp only [Option.some.injEq] at hlv
            exact ⟨req, w, ws, rfl, hw, hlv.symm⟩
  rcases hstruct with ⟨hlv2, hreq⟩ | ⟨req, w, ws, hreq, hw, hlv2⟩
  · subst hlv2
    refine ⟨processLine_ok plan line e _ m hm hlv, rfl, rfl, rfl, fun _ => rfl, ?_,
      fun k hk => applyUpdates_frame e _ m k hk⟩
    intro req w ws h1 _
    rw [hreq] at h1
    exact Option.noConfusion h1
  · subst hlv2
    refine ⟨processLine_ok plan line e _ m hm hlv, rfl, rfl, rfl, ?_, ?_,
      fun k hk => applyUpdates_frame e _ m k hk⟩
    · intro h1
      rw [hreq] at h1
      exact Option.noConfusion h1
    · intro req' w' ws' h1 h2
      rw [hreq] at h1
      injection h1 with h1
      subst h1
      rw [hw] at h2
      injection h2 with h2a h2b
      subst h2a
      rfl

def w9plan : List FormatToken := scanFormat ("$status \"$request\"").toList

def w9line : Chars := ("302 \"POST /y HTTP/1.1\"").toList

def w9entry : Entry := [(statusN, ("302").toList), (requestN, ("POST /y HTTP/1.1").toList)]

def w9lv : List Chars := [("302").toList, ("POST").toList]

/-- Witness for C9 at line `302 "POST /y HTTP/1.1"`. -/
theorem C9_label_tuple_consistency_witness :
    (matchPlan w9plan w9line = some w9entry
      ∧ deriveLabelValues w9entry = some w9lv)
    ∧ (processLine w9plan w9line initMetrics
        = StepResult.ok (applyUpdates w9entry w9lv initMetrics)
      ∧ metricLabelNames = [("status").toList, ("method").toList]
      ∧ w9lv.length = metricLabelNames.length
      ∧ w9lv.head? = some ((entryField w9entry statusN).getD [])
      ∧ (entryField w9entry requestN = none →
          w9lv = [(entryField w9entry statusN).getD [], []])
      ∧ (∀ req w ws, entryField w9entry requestN = some req → stringsFields req = w :: ws →
          w9lv = [(entryField w9entry statusN).getD [], w])
      ∧ ∀ k, k ≠ w9lv →
          (applyUpdates w9entry w9lv initMetrics).countTotal k = initMetrics.countTotal k
          ∧ (applyUpdates w9entry w9lv initMetrics).bytesTotal k = initMetrics.bytesTotal k
          ∧ (applyUpdates w9entry w9lv initMetrics).upstreamSeconds k
              = initMetrics.upstreamSeconds k
          ∧ (applyUpdates w9entry w9lv initMetrics).upstreamSecondsHist k
              = initMetrics.upstreamSecondsHist k
          ∧ (applyUpdates w9entry w9lv initMetrics).responseSeconds k
              = initMetrics.responseSeconds k
          ∧ (applyUpdates w9entry w9lv initMetrics).responseSecondsHist k
              = initMetrics.responseSecondsHist k) :=
  ⟨⟨by decide, by decide⟩,
    C9_label_tuple_consistency w9plan w9line w9entry w9lv initMetrics (by decide) (by decide)⟩

/-- Upstream metric families are untouched when the upstream field does not
parse. -/
theorem applyUpdates_upstream_unchanged (e : Entry) (lv : List Chars) (m : Metrics)
    (h : entryFloatField e upstreamN = none) :
    (applyUpdates e lv m).upstreamSeconds = m.upstreamSeconds
    ∧ (applyUpdates e lv m).upstreamSecondsHist = m.upstreamSecondsHist := by
  constructor
  · simp only [applyUpdates_upstreamSeconds, h]
  · simp only [applyUpdates_upstreamSecondsHist, h]

/-- Claim C10: the default format template declares no
`upstream_response_time` placeholder, so on every line it accepts, the
upstream field lookup fails, the numeric accessor fails, and neither the
upstream-time summary nor the upstream-time histogram is ever updated,
whatever the outcome of the rest of the step. -/
theorem C10_default_format_no_upstream (line : Chars) (m : Metrics) (e : Entry)
    (hm : matchPlan defaultPlan line = some e) :
    entryField e upstreamN = none
    ∧ entryFloatField e upstreamN = none
    ∧ (stepMetricsAny (processLine defaultPlan line m)).upstreamSeconds = m.upstreamSeconds
    ∧ (stepMetricsAny (processLine defaultPlan line m)).upstreamSecondsHist
        = m.upstreamSecondsHist := by
  have hnames := matchPlan_names defaultPlan line e hm
  have hnone : entryField e upstreamN = none := by
    apply entryField_eq_none
    intro p hp hpn
    have hmem := hnames p hp
    rw [hpn] at hmem
    exact absurd hmem (by decide)
  have hfnone : entryFloatField e upstreamN = none := by
    simp [entryFloatField, hnone]
  have hboth :
      (stepMetricsAny (processLine defaultPlan line m)).upstreamSeconds = m.upstreamSeconds
      ∧ (stepMetricsAny (processLine defaultPlan line m)).upstreamSecondsHist
          = m.upstreamSecondsHist := by
    simp only [processLine, hm, processEntry]
    cases hlv : deriveLabelValues e with
    | none => exact ⟨rfl, rfl⟩
    | some lv => exact applyUpdates_upstream_unchanged e lv m hfnone
  exact ⟨hnone, hfnone, hboth.1, hboth.2⟩

def w10line : Chars :=
  ("1.2.3.4 - alice [10/Oct/2000] \"GET / HTTP/1.0\" 200 123 \"ref\" \"ua\" \"fwd\" 0.5").toList

def w10entry : Entry :=
  [(("remote_addr").toList, ("1.2.3.4").toList),
   (("remote_user").toList, ("alice").toList),
   (("time_local").toList, ("10/Oct/2000").toList),
   (requestN, ("GET / HTTP/1.0").toList),
   (statusN, ("200").toList),
   (bodyBytesN, ("123").toList),
   (("http_referer").toList, ("ref").toList),
   (("http_user_agent").toList, ("ua").toList),
   (("http_x_forwarded_for").toList, ("fwd").toList),
   (requestTimeN, ("0.5").toList)]

/-- Witness for C10 at a full default-format line. -/
theorem C10_default_format_no_upstream_witness :
    matchPlan defaultPlan w10line = some w10entry
    ∧ (entryField w10entry upstreamN = none
      ∧ entryFloatField w10entry upstreamN = none
      ∧ (stepMetricsAny (processLine defaultPlan w10line initMetrics)).upstreamSeconds
          = initMetrics.upstreamSeconds
      ∧ (stepMetricsAny (processLine defaultPlan w10line initMetrics)).upstreamSecondsHist
          = initMetrics.upstreamSecondsHist) :=
  ⟨by decide, C10_default_format_no_upstream w10line initMetrics w10entry (by decide)⟩
